import Mathlib

/-!
# Verification of header-field parsing of pw-curl, filename resolution and scheduling

Shallow embedding of the pw-curl sources (`src/pw_http_util.c`, `src/fetch.c`,
and the CurlRequest runner) into Lean 4.

Modelling conventions:
* C strings are modelled as `List Nat` of byte values (0‥255).  The
  terminating NUL is *not* stored: reading at an index `≥ length` yields `0`
  (`byteAt`), which is exactly the NUL byte the C code sees there.
* A parser cursor (`char** current_char`) is an index into that list.
* String values of the `pw` library (`PwValue`) are `List Nat`; a `PwValue`
  that can be Null is an `Option`.  `pw` maps are association lists.
* `pw` allocation failures (`pw_string_append`, `pw_create_map`, … returning
  false on OOM) are not modelled: in the embedding allocation always succeeds,
  so the corresponding `return false` branches disappear.  The only failure
  paths that remain are the ones the C code takes *explicitly* with
  `pw_set_status` (in `parse_media_type`).
* File and network I/O (`pw_file_open`, `pw_write`, libcurl) are external
  collaborators; they are modelled as succeeding, and the per-transfer data
  libcurl exposes (response status, header values, Location) is passed in as
  an explicit environment `Env`.
-/

namespace PwCurl

/-- Byte of a C string; indices past the end read the terminating NUL (0). -/
def byteAt (s : List Nat) (i : Nat) : Nat := s.getD i 0

/-- Convert an ASCII Lean string literal to its byte list. -/
def bytes (s : String) : List Nat := s.data.map Char.toNat

/-- Slice `s[a..b)`, the bytes appended by `pw_string_append(result, a_ptr, b_ptr)`. -/
def slice (s : List Nat) (a b : Nat) : List Nat := (s.drop a).take (b - a)

/-- C string starting at index `i`: bytes up to the first NUL. -/
def cstring (s : List Nat) (i : Nat) : List Nat :=
  (s.drop i).takeWhile (fun c => !(c == 0))

/-- Predicate `is_ctl` from pw_http_util.c: octets 0–31 and DEL (127). -/
def is_ctl (c : Nat) : Bool := c ≤ 31 || c == 127

/-- Predicate `is_separator` from pw_http_util.c (RFC 2616 separators). -/
def is_separator (c : Nat) : Bool :=
  c == 40 || c == 41 || c == 60 || c == 62 || c == 64 ||   -- ( ) < > @
  c == 44 || c == 59 || c == 58 || c == 92 || c == 34 ||   -- , ; : \ "
  c == 47 || c == 91 || c == 93 || c == 63 || c == 61 ||   -- / [ ] ? =
  c == 123 || c == 125 || c == 32 || c == 9                -- { } SP HT

/-- Helper `skip_lwsp`: advance over SP, HT, CR, LF; stops at NUL (not in the set). -/
def skip_lwsp (s : List Nat) (i : Nat) : Nat :=
  i + ((s.drop i).takeWhile (fun c => c == 32 || c == 9 || c == 13 || c == 10)).length

/-- C `isdigit` (ASCII). -/
def isdigit (c : Nat) : Bool := 48 ≤ c && c ≤ 57

/-- C `isalpha` (ASCII). -/
def isalpha (c : Nat) : Bool := (65 ≤ c && c ≤ 90) || (97 ≤ c && c ≤ 122)

/-- C `isalnum` (ASCII). -/
def isalnum (c : Nat) : Bool := isdigit c || isalpha c

/-- C `isxdigit` (ASCII). -/
def isxdigit (c : Nat) : Bool := isdigit c || (65 ≤ c && c ≤ 70) || (97 ≤ c && c ≤ 102)

/-- C `islower` (ASCII). -/
def islower (c : Nat) : Bool := 97 ≤ c && c ≤ 122

/-- Function `pw_string_lower`: ASCII case folding, applied byte-wise. -/
def pw_lower (s : List Nat) : List Nat :=
  s.map (fun c => if 65 ≤ c && c ≤ 90 then c + 32 else c)

/--
`parse_token` (pw_http_util.c:99): consume the maximal run of characters that
are neither CTL nor separator, starting at the cursor; return the token and
the advanced cursor.  The scan stops at the terminating NUL because NUL is a
CTL, which on the list model is exactly `takeWhile` on the remaining bytes.
-/
def parse_token (s : List Nat) (i : Nat) : List Nat × Nat :=
  let tok := (s.drop i).takeWhile (fun c => !(is_separator c || is_ctl c))
  (tok, i + tok.length)

/--
Scanning loop of `parse_quoted_string` (pw_http_util.c:147–167), with the
accumulated result and the two pointers `qstr_start`/`qstr_end` as state.
Returns `(result, qstr_start, qstr_end)` at loop exit.  One fuel unit is spent
per iteration; every non-exiting iteration advances `qend`, so fuel
`s.length + 1` (as supplied by `parse_quoted_string`) never runs out.
-/
def pqs_loop (s : List Nat) : Nat → Nat → Nat → List Nat → List Nat × Nat × Nat
  | 0, qstart, qend, res => (res, qstart, qend)
  | fuel+1, qstart, qend, res =>
    let c := byteAt s qend
    if is_ctl c && !(c == 32) && !(c == 9) then (res, qstart, qend)  -- break (CTL other than SP/HT)
    else if c == 34 then (res, qstart, qend)                          -- break (closing quote)
    else if !(c == 92) then pqs_loop s fuel qstart (qend + 1) res
    else  -- backslash: append what we have got and skip the quote char
      pqs_loop s fuel (qend + 1) (qend + 1) (res ++ slice s qstart qend)

/--
`parse_quoted_string` (pw_http_util.c:123): returns `none` (Null) when the
cursor is not on a `"`.  If the string is not closed by a matching `"`, the
result is truncated to the empty string.  The second component is the
advanced cursor (`*current_char` on return).
-/
def parse_quoted_string (s : List Nat) (i : Nat) : Option (List Nat) × Nat :=
  if !(byteAt s i == 34) then (none, i)
  else
    let qstart := i + 1
    let (res, qstart', qend) := pqs_loop s (s.length + 1) qstart qstart []
    if !(byteAt s qend == 34) then (some [], qend)        -- strict parsing, ignore malformed string
    else (some (res ++ slice s qstart' qend), qend + 1)   -- append tail, skip closing quote

/-- Predicate `is_mime_charsetc` (pw_http_util.c:183). -/
def is_mime_charsetc (c : Nat) : Bool :=
  isalnum c ||
  c == 33 || c == 35 || c == 36 || c == 37 || c == 38 ||   -- ! # $ % &
  c == 43 || c == 45 || c == 94 || c == 95 || c == 96 ||   -- + - ^ _ `
  c == 123 || c == 125 || c == 126                          -- { } ~

/--
`xdigit_to_num` (pw_http_util.c:207): if the byte at the cursor is not a hex
digit, return 0 without advancing; otherwise advance and return its value.
-/
def xdigit_to_num (s : List Nat) (j : Nat) : Nat × Nat :=
  let c := byteAt s j
  if !(isxdigit c) then (0, j)
  else if isdigit c then (c - 48, j + 1)
  else if islower c then (10 + c - 97, j + 1)
  else (10 + c - 65, j + 1)

/--
`parse_value_char` (pw_http_util.c:224): one `attr-char` or `%HH` unit of an
RFC 5987 value.  Returns the decoded character (0 meaning "stop here") and the
advanced cursor.  Note the C code uses 0 as the in-band failure value of
`xdigit_to_num`, so a `%HH` pair with a zero nibble also stops the scan.
-/
def parse_value_char (s : List Nat) (j : Nat) : Nat × Nat :=
  let c := byteAt s j
  if isalnum c then (c, j + 1)
  else if c == 33 || c == 35 || c == 36 || c == 38 || c == 43 || c == 45 || c == 46 ||
          c == 94 || c == 95 || c == 96 || c == 124 || c == 126 then   -- ! # $ & + - . ^ _ ` | ~
    (c, j + 1)
  else if c == 37 then   -- '%': pct-encoded
    let j1 := j + 1
    let (high_nibble, j2) := xdigit_to_num s j1
    if high_nibble == 0 then (0, j2)
    else
      let (low, j3) := xdigit_to_num s j2
      if low == 0 then (0, j3)
      else ((high_nibble <<< 4) ||| low, j3)
  else (0, j)

/--
Value loop of `parse_ext_value` (pw_http_util.c:324–332): append decoded
characters until `parse_value_char` returns 0.  The decoded value is kept as
the sequence of decoded octets.  Every continuing iteration advances the
cursor, so fuel `s.length + 1` never runs out.
-/
def value_chars (s : List Nat) : Nat → Nat → List Nat → List Nat × Nat
  | 0, j, acc => (acc, j)
  | fuel+1, j, acc =>
    let (c, j') := parse_value_char s j
    if c == 0 then (acc, j')
    else value_chars s fuel j' (acc ++ [c])

/-- RFC 5987 extended value, the map `{charset, language, value}` built by
`parse_ext_value` with `pw_map_va`. -/
structure ExtValue where
  charset : List Nat
  language : List Nat
  value : List Nat
deriving DecidableEq, Repr

/--
`parse_ext_value` (pw_http_util.c:266).  Returns `none` (Null result) for a
malformed ext-value, and the advanced cursor.

The C routine scans mime-charset characters with `charset_ptr` but never
advances `language_ptr`, which stays at the start of the input; the
single-quote test on `*language_ptr` therefore looks at the *first* input byte, and
writes the charset-terminating NUL there (`*language_ptr++ = 0`).  The
in-place NUL writes are modelled with `List.set`; they sit below the returned
cursor and are only read back inside this function (as the `charset` and
`language` C-string terminators).
-/
def parse_ext_value (s : List Nat) (i : Nat) : Option ExtValue × Nat :=
  let charset_ptr := i + ((s.drop i).takeWhile is_mime_charsetc).length
  let language_ptr := i
  -- *current_char = language_ptr
  if !(byteAt s language_ptr == 39) then (none, language_ptr)   -- malformed ext-value
  else
    let s1 := s.set language_ptr 0          -- *language_ptr++ = 0 (terminate charset part)
    let language_start := language_ptr + 1
    -- get language tag by simply searching closing single quote (or NUL)
    let value_quote :=
      language_start +
        ((s1.drop language_start).takeWhile (fun c => !(c == 39) && !(c == 0))).length
    if !(byteAt s1 value_quote == 39) then (none, value_quote)  -- malformed ext-value
    else
      let s2 := s1.set value_quote 0        -- *value_ptr++ = 0 (terminate language part)
      let value_start := value_quote + 1
      let (value, j) := value_chars s2 (s2.length + 1) value_start []
      let charset := cstring s2 charset_ptr
      let language := cstring s2 language_start
      (some ⟨charset, language, value⟩, j)

/-- A parameter value stored in `disposition_params`: a PwValue that is
either a plain string or the `{charset, language, value}` map produced by
`parse_ext_value` (`pw_is_string` distinguishes the two). -/
inductive DispValue where
  | str (v : List Nat)
  | ext (e : ExtValue)
deriving DecidableEq, Repr

/-- Function `pw_map_update`: replace the value of an existing key, else append. -/
def pw_map_update (m : List (List Nat × α)) (k : List Nat) (v : α) :
    List (List Nat × α) :=
  if m.any (fun p => p.1 == k) then
    m.map (fun p => if p.1 == k then (k, v) else p)
  else m ++ [(k, v)]

/-- Function `pw_map_get`: look a key up in a pw map. -/
def pw_map_get (m : List (List Nat × α)) (k : List Nat) : Option α :=
  (m.find? (fun p => p.1 == k)).map Prod.snd

/--
`CurlRequestData` (pw_curl.h:25), restricted to the fields the modelled code
reads or writes.  `easy_handle`, `headers`, `proxy`, `real_url` and `content`
are transport-library glue (libcurl handles, the base-type body buffer) and
never touched by the parsing/naming/write paths modelled here.
`disposition_type` and `disposition_params` are left Null (`none`) by
`init_curl_request` and only become set (string/map) after
`parse_content_disposition` commits, which is what `pw_is_string` /
`pw_is_map` test in `curl_request_get_filename`.
-/
structure CurlReq where
  url : List Nat
  status : Nat
  media_type : List Nat
  media_subtype : List Nat
  media_type_params : List (List Nat × List Nat)
  disposition_type : Option (List Nat)
  disposition_params : Option (List (List Nat × DispValue))
deriving DecidableEq, Repr

/-- A freshly initialized request (`init_curl_request`, part_001:48):
url/proxy/media fields are empty strings, params an empty map, status 0,
disposition fields left zeroed (Null). -/
def init_request (url : List Nat) : CurlReq :=
  { url := url, status := 0, media_type := [], media_subtype := [],
    media_type_params := [], disposition_type := none, disposition_params := none }

/-- The explicit error statuses `parse_media_type` raises with
`pw_set_status` (pw_http_util.c:367,371). -/
inductive PwErr where
  | pwError      -- PW_ERROR: NUL where '/' was required
  | pwErrorEof   -- PW_ERROR_EOF: the byte after the type token is not '/'
deriving DecidableEq, Repr

/--
Parameter loop of `parse_media_type` (pw_http_util.c:385–433).  Returns the
accumulated parameter map and the final cursor.  Malformed delimiter
sequences break the loop keeping the parameters parsed so far.  Every
iteration that recurses has consumed at least the `;`, so the cursor strictly
increases and fuel `s.length + 1` never runs out.
-/
def pmt_params (s : List Nat) :
    Nat → Nat → List (List Nat × List Nat) → List (List Nat × List Nat) × Nat
  | 0, i, params => (params, i)
  | fuel+1, i, params =>
    let i := skip_lwsp s i
    if byteAt s i == 0 then (params, i)
    else if !(byteAt s i == 59) then (params, i)   -- not ';': malformed, keep what we have
    else
      let i := skip_lwsp s (i + 1)
      let (param_name, i) := parse_token s i
      let i := skip_lwsp s i
      if !(byteAt s i == 61) then (params, i)      -- no '='
      else
        let i := skip_lwsp s (i + 1)
        if byteAt s i == 0 then (params, i)
        else
          let (param_value, i) :=
            if byteAt s i == 34 then parse_quoted_string s i
            else
              let (t, i) := parse_token s i
              (some t, i)
          match param_value with
          | none => (params, i)                    -- pw_is_string failed
          | some v => pmt_params s fuel i (pw_map_update params (pw_lower param_name) v)

/--
`parse_media_type` (pw_http_util.c:349): `token "/" token` then parameters.
On the two explicit `pw_set_status` failure paths the request is returned
untouched together with the raised status; on success the three media fields
are committed at the end (`pw_move`).  `pw` allocation failures are the only
other `return false` paths in the C routine and are not modelled.
-/
def parse_media_type (s : List Nat) (req : CurlReq) : CurlReq × Option PwErr :=
  let (media_type, i) := parse_token s 0
  if byteAt s i == 0 then (req, some PwErr.pwError)
  else if !(byteAt s i == 47) then (req, some PwErr.pwErrorEof)
  else
    let (media_subtype, i) := parse_token s (i + 1)
    let (params, _) := pmt_params s (s.length + 1) i []
    ({req with media_type := media_type, media_subtype := media_subtype,
               media_type_params := params}, none)

/--
Parameter loop of `parse_content_disposition` (pw_http_util.c:472–529).
Like the media-type loop, but a `*` right after the parameter-name token
selects ext-value parsing.  Since `parse_token` consumes every non-separator,
non-CTL byte and `*` is neither, the token can only stop on a byte that is a
separator or CTL — never on `*` — so `is_ext_value` can never become true.
A non-string parameter value (Null or ext-value map) fails the
`pw_is_string` check and breaks the loop without storing the parameter.
-/
def pcd_params (s : List Nat) :
    Nat → Nat → List (List Nat × DispValue) → List (List Nat × DispValue) × Nat
  | 0, i, params => (params, i)
  | fuel+1, i, params =>
    let i := skip_lwsp s i
    if byteAt s i == 0 then (params, i)
    else if !(byteAt s i == 59) then (params, i)   -- not ';': malformed, keep what we have
    else
      let i := skip_lwsp s (i + 1)
      let (param_name, i) := parse_token s i
      let (is_ext_value, i) :=
        if byteAt s i == 42 then (true, i + 1) else (false, i)
      let i := skip_lwsp s i
      if !(byteAt s i == 61) then (params, i)      -- no '='
      else
        let i := skip_lwsp s (i + 1)
        if byteAt s i == 0 then (params, i)
        else
          let (param_value, i) :=
            if is_ext_value then
              let (r, i) := parse_ext_value s i
              (r.map DispValue.ext, i)
            else if byteAt s i == 34 then
              let (r, i) := parse_quoted_string s i
              (r.map DispValue.str, i)
            else
              let (t, i) := parse_token s i
              (some (DispValue.str t), i)
          match param_value with
          | some (DispValue.str v) =>
            pcd_params s fuel i (pw_map_update params (pw_lower param_name) (DispValue.str v))
          | _ => (params, i)                       -- pw_is_string failed

/--
`parse_content_disposition` (pw_http_util.c:440): lowercased disposition-type
token, then parameters; commits `disposition_type` and `disposition_params`
at the end.  The `return false` paths of the C routine are all allocation
failures, not modelled, so the embedding is total.
-/
def parse_content_disposition (s : List Nat) (req : CurlReq) : CurlReq :=
  let (disposition_type, i) := parse_token s 0
  let disposition_type := pw_lower disposition_type
  let (params, _) := pcd_params s (s.length + 1) i []
  {req with disposition_type := some disposition_type,
            disposition_params := some params}

/--
Per-transfer data the external transfer engine (libcurl) exposes to the
modelled code: the response status (`CURLINFO_RESPONSE_CODE`), the
Content-Type (`CURLINFO_CONTENT_TYPE`), and the last observed instances of
the `Content-Disposition` and `Location` response headers as returned by
`get_response_header` (pw_http_util.c:10), `none` when the header is absent.
-/
structure Env where
  status : Nat
  contentType : Option (List Nat)
  contentDisposition : Option (List Nat)
  location : Option (List Nat)
deriving DecidableEq, Repr

/--
`curl_request_parse_content_type` (pw_http_util.c:535): parse the
Content-Type reported by curl, if any; on parse failure a warning is printed
and the request is left as `parse_media_type` returned it (untouched).
-/
def curl_request_parse_content_type (env : Env) (req : CurlReq) : CurlReq :=
  match env.contentType with
  | none => req
  | some s => (parse_media_type s req).1

/--
`curl_request_parse_content_disposition` (pw_http_util.c:555): parse the last
`Content-Disposition` header, if any.
-/
def curl_request_parse_content_disposition (env : Env) (req : CurlReq) : CurlReq :=
  match env.contentDisposition with
  | none => req
  | some s => parse_content_disposition s req

/-- Function `curl_request_parse_headers` (pw_http_util.c:571). -/
def curl_request_parse_headers (env : Env) (req : CurlReq) : CurlReq :=
  curl_request_parse_content_disposition env (curl_request_parse_content_type env req)

/-- Function `pw_string_split_chr(s, c, 0)`: split on every occurrence of byte `c`
(maxsplit 0 = unlimited); always returns at least one part. -/
def splitChr (c : Nat) : List Nat → List (List Nat)
  | [] => [[]]
  | b :: rest =>
    match splitChr c rest with
    | [] => [[]]   -- unreachable: splitChr never returns []
    | hd :: tl => if b = c then [] :: hd :: tl else (b :: hd) :: tl

/-- Accessor `pw_array_item(&parts, -1)`: the last element of a split (split results
are never empty, so the default is never used). -/
def lastPart (parts : List (List Nat)) : List Nat := parts.getLast?.getD []

/-- The map `{filename, charset}` returned by `curl_request_get_filename`. -/
structure FilenameInfo where
  filename : List Nat
  charset : List Nat
deriving DecidableEq, Repr

/--
Fall-through tail of `curl_request_get_filename` (pw_http_util.c:618–648):
split the last `Location` header if one was observed, else the request URL,
on `/`; take the last part; if it is empty append `"index.html"` to it.
-/
def filename_from_path (req : CurlReq) (location : Option (List Nat)) : FilenameInfo :=
  let parts :=
    match location with
    | some loc => splitChr 47 loc
    | none => splitChr 47 req.url
  let filename := lastPart parts
  let filename := if filename.length == 0 then filename ++ bytes "index.html" else filename
  { filename := filename, charset := [] }

/--
`curl_request_get_filename` (pw_http_util.c:577): if the parsed disposition
is a map and the disposition type is the string `"attachment"`, use its
`filename` parameter (an ext-value map contributes its decoded `value` and
`charset` fields, a plain string an empty charset); otherwise derive the name
from the Location header or the URL.
-/
def curl_request_get_filename (req : CurlReq) (location : Option (List Nat)) :
    FilenameInfo :=
  match req.disposition_params with
  | some params =>
    if req.disposition_type == some (bytes "attachment") then
      match pw_map_get params (bytes "filename") with
      | some (DispValue.ext e) => { filename := e.value, charset := e.charset }
      | some (DispValue.str v) => { filename := v, charset := [] }
      | none => filename_from_path req location
    else filename_from_path req location
  | none => filename_from_path req location

/--
Condition under which `curl_request_get_filename` takes its fall-through
path (no disposition filename parameter is selected): the disposition
parameters are not a map (header never parsed), or the disposition type is
not the string `attachment`, or no parameter is stored under the key
`filename` — the three ways the nested ifs at pw_http_util.c:589-615 fall
through to the Location/URL split.
-/
def no_disposition_filename (req : CurlReq) : Bool :=
  match req.disposition_params with
  | none => true
  | some params =>
    !(req.disposition_type == some (bytes "attachment")) ||
    (pw_map_get params (bytes "filename")).isNone

/--
Modelled from the spec: `pw_basename` belongs to the external `pw` library
(not part of this repository); per §4.2 the resolver takes "the path segment
after the last `/`", so it is modelled as the last `/`-separated part.
-/
def pw_basename (s : List Nat) : List Nat := lastPart (splitChr 47 s)

/-- Function `pw_string_split_chr(s, c, 1)`: split on the first occurrence only. -/
def splitChrOnce (c : Nat) (s : List Nat) : List (List Nat) :=
  let pre := s.takeWhile (fun b => !(b == c))
  if pre.length == s.length then [s] else [pre, s.drop (pre.length + 1)]

/--
File-name computation of `write_data` (fetch.c:86–103), run when the output
file is about to be created: take the basename of the name
`curl_request_get_filename` resolved; if that is empty (or errored), fall
back to the basename of the URL truncated at the first `?`, defaulting to
`"index.html"` when that too is empty.  `pw_basename` errors are I/O-free in
the model, so only the empty-name branch of the C disjunction remains.
-/
def resolve_filename (env : Env) (req : CurlReq) : List Nat :=
  let filename_info := curl_request_get_filename req env.location
  let full_name := filename_info.filename
  let filename := pw_basename full_name
  if filename.length == 0 then
    -- get file name from URL
    let parts := splitChrOnce 63 req.url
    let url := parts.getD 0 []
    let filename := pw_basename url
    if filename.length == 0 then bytes "index.html" else filename
  else filename

/--
`FileRequestData` (fetch.c:11): the CurlRequest extended with the output
file.  `file` is Null (`none`) until `write_data` opens it; an open file is
represented by its name (file I/O itself is external).
-/
structure FileReq where
  curl : CurlReq
  file : Option (List Nat)
deriving DecidableEq, Repr

/--
`write_data` (fetch.c:60), the body-write callback of the FileRequest type.
`size` is the chunk size; the return value is the number of bytes consumed
plus the updated request.  File opening (`pw_file_open`) and writing
(`pw_write`) are external collaborators modelled as succeeding, with
`pw_write` writing the whole chunk.
-/
def write_data (env : Env) (size : Nat) (req : FileReq) : Nat × FileReq :=
  if size == 0 then (0, req)
  else
    -- get status from curl request (curl_update_status)
    let curl := {req.curl with status := env.status}
    if !(curl.status == 200) then (0, {req with curl := curl})
    else
      match req.file with
      | some _ => (size, {req with curl := curl})   -- file already created: just write
      | none =>
        -- the file is not created yet, do that
        let curl := curl_request_parse_headers env curl
        let filename := resolve_filename env curl
        (size, { curl := curl, file := some filename })

/-- A sequence of body-write callbacks (chunk environments and sizes) folded
over one request, collecting the return value of each callback. -/
def write_many : List (Env × Nat) → FileReq → List Nat × FileReq
  | [], req => ([], req)
  | (env, size) :: rest, req =>
    let (n, req') := write_data env size req
    let (ns, reqf) := write_many rest req'
    (n :: ns, reqf)

/--
Admission loop of `main` (fetch.c:252–262): starting from
`i = running_transfers`, pop a pending URL and submit a request while
`i < parallel` and the queue is non-empty.  The pending array is modelled
with the most recently appended URL first, so `pw_array_pop` (which removes
the last appended element, LIFO) is head removal.  The C for-loop checks
`i < parallel` before testing the queue; on an empty queue both orders
return `(i, [])`, so the structural match below is equivalent.
Returns the final `i` (= in-flight count after admission) and the remaining
queue.
-/
def admitLoop (parallel : Nat) (i : Nat) : List α → Nat × List α
  | [] => (i, [])
  | u :: rest =>
    if i < parallel then admitLoop parallel (i + 1) rest
    else (i, u :: rest)

/--
Scheduler loop of `main` (fetch.c:244–267).  Each iteration models one pass:
`curl_perform` reports the number of still-running transfers (in-flight minus
the completions this pass delivered, taken from the oracle), then the
admission loop tops the pool up.  The oracle list doubles as the loop bound:
an exhausted oracle models leaving the loop (SIGINT observed, or a fatal
`curl_perform` failure).  Returns the post-admission in-flight count of every
iteration (the observation points named by the claims).
-/
def sched_run (parallel : Nat) : List Nat → List α → Nat → List Nat
  | [], _, _ => []
  | completions :: rest, urls, inFlight =>
    let running_transfers := inFlight - completions
    let (i, urls') := admitLoop parallel running_transfers urls
    if i == 0 then [i]   -- no running transfers and no more URLs were added: break
    else i :: sched_run parallel rest urls' i

/--
Top level of `main` (fetch.c:231–267): with no URLs only the usage message is
printed; otherwise one request is created up front (`pw_array_pop` takes the
head in the reversed-stack model) and the loop runs with one transfer in
flight.
-/
def fetch_observations (parallel : Nat) (urls : List α) (oracle : List Nat) : List Nat :=
  match urls with
  | [] => []
  | _ :: rest => sched_run parallel oracle rest 1

example : fetch_observations 2 [10, 20, 30] [0, 1, 1, 1] = [2, 2, 1, 0] := by decide
example : fetch_observations 3 [10, 20] [0, 0, 2] = [2, 2, 0] := by decide

example : parse_token (bytes "text/html") 0 = (bytes "text", 4) := by decide
example : parse_token (bytes "filename*=x") 0 = (bytes "filename*", 9) := by decide
example : parse_quoted_string (bytes "\"abc\"x") 0 = (some (bytes "abc"), 5) := by decide
example : parse_quoted_string (bytes "\"a\\\"b\"") 0 = (some (bytes "a"), 4) := by decide
example : parse_quoted_string (bytes "\"unterminated") 0 = (some [], 13) := by decide
example : parse_quoted_string (bytes "plain") 0 = (none, 0) := by decide
example : parse_ext_value (bytes "UTF-8\x27en\x27%e2%82%ac") 0 = (none, 0) := by decide
example : parse_ext_value (bytes "\x27en\x27%e2%82%ac") 0 =
    (some ⟨[], bytes "en", [0xE2, 0x82, 0xAC]⟩, 13) := by decide
example : parse_ext_value (bytes "\x27fr\x27%30abc") 0 =
    (some ⟨[], bytes "fr", []⟩, 7) := by decide
example : parse_media_type (bytes "text/html; charset=UTF-8") (init_request []) =
    ({init_request [] with media_type := bytes "text", media_subtype := bytes "html",
                           media_type_params := [(bytes "charset", bytes "UTF-8")]}, none) := by
  decide
example : parse_media_type (bytes "text") (init_request []) =
    (init_request [], some PwErr.pwError) := by decide
example : parse_media_type (bytes "text html") (init_request []) =
    (init_request [], some PwErr.pwErrorEof) := by decide
example :
    (parse_content_disposition (bytes "attachment; filename=\"report.pdf\"")
      (init_request [])).disposition_params =
    some [(bytes "filename", DispValue.str (bytes "report.pdf"))] := by decide
example :
    (parse_content_disposition (bytes "attachment; filename*=UTF-8\x27\x27report.pdf")
      (init_request [])).disposition_params =
    some [(bytes "filename*", DispValue.str (bytes "UTF-8\x27\x27report.pdf"))] := by decide
example :
    curl_request_get_filename
      (parse_content_disposition (bytes "attachment; filename=\"report.pdf\"")
        (init_request (bytes "https://example.com/x/y"))) none =
    { filename := bytes "report.pdf", charset := [] } := by decide
example :
    curl_request_get_filename
      (parse_content_disposition (bytes "attachment; filename*=UTF-8\x27\x27report.pdf")
        (init_request (bytes "https://example.com/x/y"))) none =
    { filename := bytes "y", charset := [] } := by decide
example :
    resolve_filename ⟨200, none, none, none⟩
      (init_request (bytes "https://example.com/a/b/file.tar.gz?x=1")) =
    bytes "file.tar.gz?x=1" := by decide
example :
    resolve_filename ⟨200, none, none, none⟩
      (init_request (bytes "https://example.com/dir/")) =
    bytes "index.html" := by decide

/-! ## Helper lemmas -/

theorem write_data_not200 (env : Env) (size : Nat) (req : FileReq) (h : env.status ≠ 200) :
    (write_data env size req).1 = 0 ∧ (write_data env size req).2.file = req.file := by
  by_cases hs : size = 0
  · subst hs; exact ⟨rfl, rfl⟩
  · simp only [write_data, beq_iff_eq, if_neg hs, hs]
    simp [h]

/-! ## Claim theorems -/

/--
Claim C10 (confirmed): a body-write callback invoked with a chunk size of
zero returns zero immediately and has no side effect on the request — the
status is not refreshed, headers are not parsed, no output file is opened,
and nothing is written, regardless of the current state of the request.
-/
theorem write_data_zero_size_noop (env : Env) (req : FileReq) :
    write_data env 0 req = (0, req) := rfl

/--
Claim C1 (counterexample): the claim as stated is false.  With engine status
201 — inside the 2xx range — and a non-empty chunk, `write_data` consumes
zero bytes and opens no output file, although the claim requires a 2xx
status to parse headers, open the file and write the bytes.  The code tests
`status != 200`, not membership in the 2xx range.
-/
theorem write_data_2xx_claim_false_at_201 :
    (write_data ⟨201, none, none, none⟩ 5
        ⟨init_request (bytes "https://example.com/a/b"), none⟩).1 = 0 ∧
    (write_data ⟨201, none, none, none⟩ 5
        ⟨init_request (bytes "https://example.com/a/b"), none⟩).2.file = none := by
  decide

/--
Claim C1 (corrected): on every body-write callback with a non-empty chunk the
status is refreshed from the engine; if it is not exactly 200 the callback
consumes zero bytes and the output file field is untouched — in particular a
request all of whose callbacks see a non-200 status (e.g. final status 404)
never has an output file created and consumes zero bytes on every callback.
If the status is exactly 200 and no file is open yet, headers are parsed, a
file name is resolved, the output file is opened, and the chunk is written.
-/
theorem write_data_status_200_gate :
    (∀ (env : Env) (size : Nat) (req : FileReq), size ≠ 0 → env.status ≠ 200 →
      (write_data env size req).1 = 0 ∧ (write_data env size req).2.file = req.file)
    ∧ (∀ (env : Env) (size : Nat) (req : FileReq), size ≠ 0 → env.status = 200 →
        req.file = none →
        (write_data env size req).1 = size ∧
        (write_data env size req).2.file =
          some (resolve_filename env
            (curl_request_parse_headers env {req.curl with status := env.status})))
    ∧ (∀ (calls : List (Env × Nat)) (req : FileReq),
        (∀ c ∈ calls, (Prod.fst c).status ≠ 200) → req.file = none →
        (write_many calls req).2.file = none ∧ ∀ n ∈ (write_many calls req).1, n = 0) := by
  refine ⟨?_, ?_, ?_⟩
  · intro env size req hsize hst
    exact write_data_not200 env size req hst
  · intro env size req hsize hst hfile
    simp only [write_data, beq_iff_eq, if_neg hsize, hsize, hst, hfile]
    simp
  · intro calls
    induction calls with
    | nil =>
      intro req _ hfile
      simp [write_many, hfile]
    | cons c rest ih =>
      intro req hst hfile
      obtain ⟨env, size⟩ := c
      have h1 : env.status ≠ 200 := hst (env, size) (List.mem_cons_self _ _)
      have hw := write_data_not200 env size req h1
      simp only [write_many]
      rcases hrec : write_data env size req with ⟨n, req'⟩
      have hfile' : req'.file = none := by
        have := hw.2; rw [hrec] at this; simpa [hfile] using this
      have hn : n = 0 := by have := hw.1; rw [hrec] at this; exact this
      have := ih req' (fun c hc => hst c (List.mem_cons_of_mem _ hc)) hfile'
      rcases hm : write_many rest req' with ⟨ns, reqf⟩
      rw [hm] at this
      refine ⟨this.1, ?_⟩
      intro m hmem
      simp only [List.mem_cons] at hmem
      rcases hmem with rfl | hmem
      · exact hn
      · exact this.2 m hmem

/--
Claim C1 (witness): the corrected theorem instantiated at concrete inputs —
a 404 response consumes nothing and leaves the file Null, a 200 response
consumes the chunk and opens the resolved file, and a run of 404 callbacks
never creates a file.
-/
theorem write_data_status_200_gate_witness :
    ((write_data ⟨404, none, none, none⟩ 5
        ⟨init_request (bytes "https://h/p/a.txt"), none⟩).1 = 0 ∧
     (write_data ⟨404, none, none, none⟩ 5
        ⟨init_request (bytes "https://h/p/a.txt"), none⟩).2.file =
       (⟨init_request (bytes "https://h/p/a.txt"), none⟩ : FileReq).file) ∧
    ((write_data ⟨200, none, none, none⟩ 5
        ⟨init_request (bytes "https://h/p/a.txt"), none⟩).1 = 5 ∧
     (write_data ⟨200, none, none, none⟩ 5
        ⟨init_request (bytes "https://h/p/a.txt"), none⟩).2.file =
       some (resolve_filename ⟨200, none, none, none⟩
         (curl_request_parse_headers ⟨200, none, none, none⟩
           {(init_request (bytes "https://h/p/a.txt")) with status := 200}))) ∧
    ((write_many [(⟨404, none, none, none⟩, 3), (⟨404, none, none, none⟩, 7)]
        ⟨init_request (bytes "https://h/p/a.txt"), none⟩).2.file = none ∧
     ∀ n ∈ (write_many [(⟨404, none, none, none⟩, 3), (⟨404, none, none, none⟩, 7)]
        ⟨init_request (bytes "https://h/p/a.txt"), none⟩).1, n = 0) :=
  ⟨write_data_status_200_gate.1 ⟨404, none, none, none⟩ 5 _ (by decide) (by decide),
   write_data_status_200_gate.2.1 ⟨200, none, none, none⟩ 5 _ (by decide) rfl rfl,
   write_data_status_200_gate.2.2 _ _ (by decide) rfl⟩

/--
Claim C2 (code bug): a `Content-Disposition: attachment` carrying only a
`filename*` parameter does not make the resolver return the decoded
parameter value.  `parse_token` consumes the `*` (it is neither a separator
nor a CTL), so the parameter is stored under the key `filename*` and the
ext-value branch guarded by `**current_char == 0x2a` is unreachable;
`curl_request_get_filename` looks up only `filename`, misses, and falls back
to the URL — here yielding `y` instead of `report.pdf`.
-/
theorem filename_star_parameter_ignored :
    curl_request_get_filename
      (parse_content_disposition (bytes "attachment; filename*=UTF-8\x27\x27report.pdf")
        (init_request (bytes "https://example.com/x/y"))) none =
      { filename := bytes "y", charset := [] } ∧
    bytes "y" ≠ bytes "report.pdf" := by
  decide

/--
Claim C3 (counterexample): the claim as stated is false.  With no
disposition and URL `https://example.com/a/b/file.tar.gz?x=1` the resolved
file name is `file.tar.gz?x=1`, not `file.tar.gz`: the query string is not
stripped before the split on `/`.
-/
theorem resolve_filename_query_not_stripped :
    resolve_filename ⟨200, none, none, none⟩
      (init_request (bytes "https://example.com/a/b/file.tar.gz?x=1")) =
      bytes "file.tar.gz?x=1" ∧
    bytes "file.tar.gz?x=1" ≠ bytes "file.tar.gz" := by
  decide

/--
Claim C4 (code bug): on the flagship input `UTF-8\x27en\x27%e2%82%ac` the
ext-value parser reports a malformed ext-value (Null result, cursor not
advanced) instead of the `{charset UTF-8, language en, value}` split: the
charset scan advances `charset_ptr` while the subsequent single-quote check
reads `language_ptr`, which still points at the first byte (`U`), so any
input with a non-empty charset is rejected.
-/
theorem parse_ext_value_rejects_nonempty_charset :
    parse_ext_value (bytes "UTF-8\x27en\x27%e2%82%ac") 0 = (none, 0) ∧
    byteAt (bytes "UTF-8\x27en\x27%e2%82%ac") 0 ≠ 39 := by
  decide

/--
Claim C5 (code bug): on input `"a\"b"` (opening quote, `a`, an escaped
quote, `b`, closing quote) `parse_quoted_string` returns `a`, not `a"b`: the
backslash branch merely skips the backslash and re-examines the next byte,
so an escaped `"` is treated as the closing quote instead of being emitted
literally.
-/
theorem parse_quoted_string_escape_drops_char :
    parse_quoted_string (bytes "\"a\\\"b\"") 0 = (some (bytes "a"), 4) ∧
    bytes "a" ≠ bytes "a\"b" := by
  decide

/--
Claim C6 (counterexample): the claim as stated is false.  On the malformed
input `text` (no `/` after the type token) `parse_media_type` raises the
hard status PW_ERROR — a failure that is not a resource-exhaustion
condition — rather than degrading to a partial result.
-/
theorem parse_media_type_hard_error_on_malformed :
    (parse_media_type (bytes "text") (init_request [])).2 = some PwErr.pwError := by
  decide

/--
Claim C6 (corrected): `parse_token`, `parse_quoted_string`, `parse_ext_value`
and `parse_content_disposition` never raise a hard error on malformed input
(their embeddings are total; the only `return false` paths in the C code are
allocation failures), but `parse_media_type` raises a hard, explicitly set
error status — PW_ERROR or PW_ERROR_EOF, distinct from resource
exhaustion — exactly when the byte after the leading type token is not the
mandatory `/` (including the empty remainder).
-/
theorem parse_media_type_error_iff_no_slash (s : List Nat) (req : CurlReq) :
    (parse_media_type s req).2 ≠ none ↔ byteAt s (parse_token s 0).2 ≠ 47 := by
  rcases hpt : parse_token s 0 with ⟨tok, i⟩
  simp only [parse_media_type, hpt]
  by_cases h0 : byteAt s i = 0
  · simp [h0]
  · by_cases h47 : byteAt s i = 47
    · rcases hpt2 : parse_token s (i + 1) with ⟨tok2, i2⟩
      rcases hpp : pmt_params s (s.length + 1) i2 [] with ⟨ps, j⟩
      simp [h0, h47, hpt2, hpp]
    · simp [h0, h47]

/--
Claim C9 (confirmed): whenever `parse_media_type` fails (returns a raised
status, e.g. for a missing `/` between type and subtype), the stored
`media_type`, `media_subtype` and `media_type_params` fields of the request
are left unchanged: results are committed only after the whole parse
succeeds.
-/
theorem parse_media_type_failure_preserves_request (s : List Nat) (req : CurlReq)
    (e : PwErr) (h : (parse_media_type s req).2 = some e) :
    (parse_media_type s req).1 = req := by
  rcases hpt : parse_token s 0 with ⟨tok, i⟩
  simp only [parse_media_type, hpt] at h ⊢
  by_cases h0 : byteAt s i = 0
  · simp [h0]
  · by_cases h47 : byteAt s i = 47
    · rcases hpt2 : parse_token s (i + 1) with ⟨tok2, i2⟩
      rcases hpp : pmt_params s (s.length + 1) i2 [] with ⟨ps, j⟩
      simp [h0, h47, hpt2, hpp] at h
    · simp [h0, h47]

/--
Claim C9 (witness): on the concrete malformed Content-Type `texthtml` the
parse fails with PW_ERROR and the request is returned with all fields
untouched.
-/
theorem parse_media_type_failure_preserves_request_witness :
    (parse_media_type (bytes "texthtml") (init_request (bytes "u"))).2 =
      some PwErr.pwError ∧
    (parse_media_type (bytes "texthtml") (init_request (bytes "u"))).1 =
      init_request (bytes "u") :=
  ⟨by decide, parse_media_type_failure_preserves_request _ _ PwErr.pwError (by decide)⟩

/-! ## Split lemmas for the filename resolver -/

theorem splitChr_ne_nil (c : Nat) (l : List Nat) : splitChr c l ≠ [] := by
  cases l with
  | nil => simp [splitChr]
  | cons b rest =>
    simp only [splitChr]
    rcases splitChr c rest with _ | ⟨hd, tl⟩
    · simp
    · by_cases h : b = c <;> simp [h]

theorem lastPart_singleton (x : List Nat) : lastPart [x] = x := rfl

theorem lastPart_cons_cons (x y : List Nat) (t : List (List Nat)) :
    lastPart (x :: y :: t) = lastPart (y :: t) := by
  simp [lastPart, List.getLast?_cons_cons]

theorem not_mem_lastPart_splitChr (c : Nat) (l : List Nat) :
    ∀ b ∈ lastPart (splitChr c l), b ≠ c := by
  induction l with
  | nil =>
    intro b hb
    simp [splitChr, lastPart] at hb
  | cons a rest ih =>
    intro b hb
    rcases h : splitChr c rest with _ | ⟨hd, tl⟩
    · exact absurd h (splitChr_ne_nil c rest)
    · rw [h] at ih
      simp only [splitChr, h] at hb
      by_cases hac : a = c
      · rw [if_pos hac, lastPart_cons_cons] at hb
        exact ih b hb
      · rw [if_neg hac] at hb
        cases tl with
        | nil =>
          rw [lastPart_singleton] at hb
          rcases List.mem_cons.mp hb with rfl | hmem
          · exact hac
          · exact ih b (by rw [lastPart_singleton]; exact hmem)
        | cons t ts =>
          rw [lastPart_cons_cons] at hb
          exact ih b (by rw [lastPart_cons_cons]; exact hb)

theorem splitChr_of_not_mem {c : Nat} : ∀ {l : List Nat}, c ∉ l → splitChr c l = [l]
  | [], _ => rfl
  | a :: rest, h => by
    have hr : splitChr c rest = [rest] :=
      splitChr_of_not_mem (fun hm => h (List.mem_cons_of_mem _ hm))
    have hac : a ≠ c := fun hh => h (hh ▸ List.mem_cons_self _ _)
    simp [splitChr, hr, hac]

theorem pw_basename_of_not_mem {s : List Nat} (h : 47 ∉ s) : pw_basename s = s := by
  rw [pw_basename, splitChr_of_not_mem h, lastPart_singleton]

theorem get_filename_fallthrough {req : CurlReq} (h : no_disposition_filename req = true)
    (location : Option (List Nat)) :
    curl_request_get_filename req location = filename_from_path req location := by
  cases hp : req.disposition_params with
  | none => simp [curl_request_get_filename, hp]
  | some params =>
    simp only [no_disposition_filename, hp, Bool.or_eq_true, Bool.not_eq_true',
      Option.isNone_iff_eq_none] at h
    simp only [curl_request_get_filename, hp]
    rcases h with h | h
    · simp [h]
    · by_cases ht : (req.disposition_type == some (bytes "attachment")) = true
      · simp only [ht, if_true, h]
      · simp [ht]

/--
Claim C3 (corrected): whenever the resolver selects no disposition filename
parameter — the disposition header was never parsed, the disposition type is
not exactly `attachment`, or no parameter is stored under the key
`filename` (which, per C2, is where a `filename*` parameter ends up) — the
resolved name is the segment after the last `/` of the last observed
Location header if any, else of the request URL, with the query string (if
any) retained, not stripped; if that segment is empty the result is the
literal `index.html`.  When an `attachment` disposition does supply a
`filename` parameter whose basename is empty (e.g. `filename=""`), the
write_data fallback runs instead and derives the name from the request URL
truncated at the first `?` (query stripped there), defaulting to
`index.html`.
-/
theorem resolve_filename_no_disposition :
    (∀ (env : Env) (req : CurlReq), no_disposition_filename req = true →
      resolve_filename env req =
        (if (lastPart (splitChr 47 (env.location.getD req.url))).length = 0
         then bytes "index.html"
         else lastPart (splitChr 47 (env.location.getD req.url))))
    ∧ (∀ (env : Env) (req : CurlReq) (params : List (List Nat × DispValue)) (v : List Nat),
        req.disposition_params = some params →
        req.disposition_type = some (bytes "attachment") →
        pw_map_get params (bytes "filename") = some (DispValue.str v) →
        (pw_basename v).length = 0 →
        resolve_filename env req =
          (if (pw_basename ((splitChrOnce 63 req.url).getD 0 [])).length = 0
           then bytes "index.html"
           else pw_basename ((splitChrOnce 63 req.url).getD 0 []))) := by
  constructor
  · intro env req h
    have hgf := get_filename_fallthrough h env.location
    have hfp : filename_from_path req env.location =
        { filename := (if (lastPart (splitChr 47 (env.location.getD req.url))).length == 0
                       then lastPart (splitChr 47 (env.location.getD req.url)) ++ bytes "index.html"
                       else lastPart (splitChr 47 (env.location.getD req.url))),
          charset := [] } := by
      cases env.location <;> simp [filename_from_path]
    simp only [resolve_filename, hgf, hfp]
    by_cases hseg : (lastPart (splitChr 47 (env.location.getD req.url))).length = 0
    · have hnil : lastPart (splitChr 47 (env.location.getD req.url)) = [] :=
        List.length_eq_zero.mp hseg
      rw [if_pos hseg, hnil]
      have hinner :
          (if ((([] : List Nat).length == 0) = true)
           then ([] : List Nat) ++ bytes "index.html" else ([] : List Nat)) =
            bytes "index.html" := by decide
      rw [hinner]
      rw [if_neg (by decide : ¬(((pw_basename (bytes "index.html")).length == 0) = true))]
      decide
    · have h47 : 47 ∉ lastPart (splitChr 47 (env.location.getD req.url)) :=
        fun hm => not_mem_lastPart_splitChr 47 _ _ hm rfl
      have hcond : ¬(((lastPart (splitChr 47 (env.location.getD req.url))).length == 0) = true) := by
        simpa using hseg
      rw [if_neg hcond, pw_basename_of_not_mem h47, if_neg hcond, if_neg hseg]
  · intro env req params v hp ht hv hb
    have hgf : curl_request_get_filename req env.location =
        { filename := v, charset := [] } := by
      simp only [curl_request_get_filename, hp, ht, hv]
      simp
    simp only [resolve_filename, hgf]
    rw [if_pos (show ((pw_basename v).length == 0) = true by simpa using hb)]
    by_cases hf : (pw_basename ((splitChrOnce 63 req.url).getD 0 [])).length = 0
    · rw [if_pos (show ((pw_basename ((splitChrOnce 63 req.url).getD 0 [])).length == 0) = true
          by simpa using hf), if_pos hf]
    · rw [if_neg (show ¬(((pw_basename ((splitChrOnce 63 req.url).getD 0 [])).length == 0) = true)
          by simpa using hf), if_neg hf]

/--
Claim C3 (witness): the corrected resolver applied at the three previously
untested points of its scope — an `inline` disposition, an `attachment`
disposition whose only parameter sits under the `filename*` key, and an
`attachment` disposition with an empty `filename`; the first two retain the
query string of the URL, the third runs the query-stripping fallback.
-/
theorem resolve_filename_no_disposition_witness :
    (no_disposition_filename
        (parse_content_disposition (bytes "inline; filename=\"x\"")
          (init_request (bytes "https://example.com/a/b/file.tar.gz?x=1"))) = true ∧
     resolve_filename ⟨200, none, none, none⟩
        (parse_content_disposition (bytes "inline; filename=\"x\"")
          (init_request (bytes "https://example.com/a/b/file.tar.gz?x=1"))) =
       bytes "file.tar.gz?x=1") ∧
    (no_disposition_filename
        (parse_content_disposition (bytes "attachment; filename*=UTF-8\x27\x27n.txt")
          (init_request (bytes "https://example.com/a/b/file.tar.gz?x=1"))) = true ∧
     resolve_filename ⟨200, none, none, none⟩
        (parse_content_disposition (bytes "attachment; filename*=UTF-8\x27\x27n.txt")
          (init_request (bytes "https://example.com/a/b/file.tar.gz?x=1"))) =
       bytes "file.tar.gz?x=1") ∧
    (resolve_filename ⟨200, none, none, none⟩
        (parse_content_disposition (bytes "attachment; filename=\"\"")
          (init_request (bytes "https://example.com/a/b?x=1"))) =
       bytes "b") :=
  ⟨⟨by decide, by
      rw [resolve_filename_no_disposition.1 ⟨200, none, none, none⟩ _ (by decide)]
      decide⟩,
   ⟨by decide, by
      rw [resolve_filename_no_disposition.1 ⟨200, none, none, none⟩ _ (by decide)]
      decide⟩,
   by
      rw [resolve_filename_no_disposition.2 ⟨200, none, none, none⟩ _
        [(bytes "filename", DispValue.str [])] [] (by decide) (by decide) (by decide) (by decide)]
      decide⟩

/-! ## Scheduler lemmas -/

theorem admitLoop_le_of_le {parallel i : Nat} (h : i ≤ parallel) :
    ∀ (urls : List α), (admitLoop parallel i urls).1 ≤ parallel := by
  intro urls
  induction urls generalizing i with
  | nil => exact h
  | cons u rest ih =>
    simp only [admitLoop]
    by_cases hlt : i < parallel
    · rw [if_pos hlt]
      exact ih hlt
    · rw [if_neg hlt]
      exact h

theorem admitLoop_snd_length_le (parallel : Nat) :
    ∀ (urls : List α) (i : Nat), (admitLoop parallel i urls).2.length ≤ urls.length := by
  intro urls
  induction urls with
  | nil => intro i; simp [admitLoop]
  | cons u rest ih =>
    intro i
    simp only [admitLoop]
    by_cases hlt : i < parallel
    · rw [if_pos hlt]
      exact le_trans (ih (i + 1)) (Nat.le_succ _)
    · rw [if_neg hlt]

theorem admitLoop_count (parallel : Nat) :
    ∀ (urls : List α) (i : Nat),
      (admitLoop parallel i urls).1 =
        i + (urls.length - (admitLoop parallel i urls).2.length) := by
  intro urls
  induction urls with
  | nil => intro i; simp [admitLoop]
  | cons u rest ih =>
    intro i
    simp only [admitLoop]
    by_cases hlt : i < parallel
    · rw [if_pos hlt]
      have hlen := admitLoop_snd_length_le parallel rest (i + 1)
      have := ih (i + 1)
      simp only [List.length_cons]
      omega
    · rw [if_neg hlt]
      simp

theorem sched_run_all_le {parallel : Nat} :
    ∀ (oracle : List Nat) (urls : List α) (inFlight : Nat), inFlight ≤ parallel →
      ∀ x ∈ sched_run parallel oracle urls inFlight, x ≤ parallel := by
  intro oracle
  induction oracle with
  | nil => intro urls inFlight _ x hx; simp [sched_run] at hx
  | cons completions rest ih =>
    intro urls inFlight hle x hx
    simp only [sched_run] at hx
    rcases hA : admitLoop parallel (inFlight - completions) urls with ⟨i, urls'⟩
    rw [hA] at hx
    have hi : i ≤ parallel := by
      have h1 : inFlight - completions ≤ parallel := le_trans (Nat.sub_le _ _) hle
      have := admitLoop_le_of_le h1 urls
      rw [hA] at this
      exact this
    by_cases h0 : i = 0
    · subst h0
      simp at hx
      subst hx
      exact Nat.zero_le _
    · have hb : (i == 0) = false := by simpa using h0
      rw [hb] at hx
      simp only [Bool.false_eq_true, if_false, List.mem_cons] at hx
      rcases hx with rfl | hx
      · exact hi
      · exact ih urls' i hi x hx

/--
Claim C7 (confirmed): for every sequence of enqueued URLs and every
parallelism limit N ≥ 1, the in-flight count observed after each admission
phase of the scheduler loop never exceeds N, and the post-admission in-flight
count equals the engine-reported running count plus the number of newly
admitted requests.  The oracle gives, per loop iteration, how many transfers
the engine reports as completed; the reported running count is the previous
in-flight count minus those completions.
-/
theorem scheduler_in_flight_bound (parallel : Nat) (hN : 1 ≤ parallel) :
    (∀ (urls : List (List Nat)) (oracle : List Nat),
      ∀ x ∈ fetch_observations parallel urls oracle, x ≤ parallel)
    ∧ (∀ (running : Nat) (urls : List (List Nat)),
        (admitLoop parallel running urls).1 =
          running + (urls.length - (admitLoop parallel running urls).2.length)) := by
  constructor
  · intro urls oracle x hx
    cases urls with
    | nil => simp [fetch_observations] at hx
    | cons u rest =>
      simp only [fetch_observations] at hx
      exact sched_run_all_le oracle rest 1 hN x hx
  · intro running urls
    exact admitLoop_count parallel urls running

/--
Claim C7 (witness): with limit 2 and three queued URLs every observed
in-flight count is at most 2.
-/
theorem scheduler_in_flight_bound_witness :
    1 ≤ 2 ∧
    ∀ x ∈ fetch_observations 2 [bytes "a", bytes "b", bytes "c"] [0, 1, 1, 1], x ≤ 2 :=
  ⟨by decide, (scheduler_in_flight_bound 2 (by decide)).1 [bytes "a", bytes "b", bytes "c"]
      [0, 1, 1, 1]⟩

/-! ## Cursor-bound lemmas for the sub-parsers -/

theorem byteAt_ne_zero_lt {s : List Nat} {i : Nat} (h : byteAt s i ≠ 0) : i < s.length := by
  by_contra hc
  push_neg at hc
  exact h (List.getD_eq_default s 0 hc)

theorem parse_token_cursor_bounds (s : List Nat) (i : Nat) (h : i ≤ s.length) :
    i ≤ (parse_token s i).2 ∧ (parse_token s i).2 ≤ s.length := by
  refine ⟨Nat.le_add_right _ _, ?_⟩
  have h1 : ((s.drop i).takeWhile (fun c => !(is_separator c || is_ctl c))).length ≤
      (s.drop i).length :=
    (List.takeWhile_prefix _).length_le
  have h2 : (s.drop i).length = s.length - i := List.length_drop _ _
  simp only [parse_token]
  omega

theorem pqs_loop_cursor_bounds (s : List Nat) :
    ∀ (fuel qstart qend : Nat) (res : List Nat), qend ≤ s.length →
      qend ≤ (pqs_loop s fuel qstart qend res).2.2 ∧
      (pqs_loop s fuel qstart qend res).2.2 ≤ s.length := by
  intro fuel
  induction fuel with
  | zero => intro qstart qend res h; exact ⟨le_refl _, h⟩
  | succ fuel ih =>
    intro qstart qend res h
    simp only [pqs_loop]
    by_cases h1 : (is_ctl (byteAt s qend) && !(byteAt s qend == 32) && !(byteAt s qend == 9)) = true
    · rw [if_pos h1]; exact ⟨le_refl _, h⟩
    · rw [if_neg h1]
      have hne : byteAt s qend ≠ 0 := fun h0 => h1 (by rw [h0]; decide)
      have hlt : qend < s.length := byteAt_ne_zero_lt hne
      by_cases h2 : (byteAt s qend == 34) = true
      · rw [if_pos h2]; exact ⟨le_refl _, h⟩
      · rw [if_neg h2]
        by_cases h3 : (!(byteAt s qend == 92)) = true
        · rw [if_pos h3]
          have := ih qstart (qend + 1) res hlt
          exact ⟨le_trans (Nat.le_succ _) this.1, this.2⟩
        · rw [if_neg h3]
          have := ih (qend + 1) (qend + 1) (res ++ slice s qstart qend) hlt
          exact ⟨le_trans (Nat.le_succ _) this.1, this.2⟩

theorem parse_quoted_string_cursor_bounds (s : List Nat) (i : Nat) (h : i ≤ s.length) :
    i ≤ (parse_quoted_string s i).2 ∧ (parse_quoted_string s i).2 ≤ s.length := by
  simp only [parse_quoted_string]
  by_cases hq : (byteAt s i == 34) = true
  · rw [if_neg (by simp [hq])]
    have hlt : i < s.length := byteAt_ne_zero_lt (fun h0 => by rw [h0] at hq; simp at hq)
    rcases hL : pqs_loop s (s.length + 1) (i + 1) (i + 1) [] with ⟨res, qs, qe⟩
    have hb := pqs_loop_cursor_bounds s (s.length + 1) (i + 1) (i + 1) [] hlt
    rw [hL] at hb
    dsimp only at hb
    simp only [hL]
    by_cases hc : (byteAt s qe == 34) = true
    · rw [if_neg (by simp [hc])]
      have hlt2 : qe < s.length := byteAt_ne_zero_lt (fun h0 => by rw [h0] at hc; simp at hc)
      exact ⟨by omega, by omega⟩
    · rw [if_pos (by simp [hc])]
      exact ⟨by omega, hb.2⟩
  · rw [if_pos (by simp [hq])]
    exact ⟨le_refl _, h⟩

theorem xdigit_to_num_cursor_bounds (s : List Nat) (j : Nat) (h : j ≤ s.length) :
    j ≤ (xdigit_to_num s j).2 ∧ (xdigit_to_num s j).2 ≤ s.length := by
  simp only [xdigit_to_num]
  by_cases hx : (!(isxdigit (byteAt s j))) = true
  · rw [if_pos hx]; exact ⟨le_refl _, h⟩
  · rw [if_neg hx]
    have hne : byteAt s j ≠ 0 := fun h0 => hx (by rw [h0]; decide)
    have hlt : j < s.length := byteAt_ne_zero_lt hne
    by_cases h1 : (isdigit (byteAt s j)) = true
    · rw [if_pos h1]; exact ⟨Nat.le_succ _, hlt⟩
    · rw [if_neg h1]
      by_cases h2 : (islower (byteAt s j)) = true
      · rw [if_pos h2]; exact ⟨Nat.le_succ _, hlt⟩
      · rw [if_neg h2]; exact ⟨Nat.le_succ _, hlt⟩

theorem parse_value_char_cursor_bounds (s : List Nat) (j : Nat) (h : j ≤ s.length) :
    j ≤ (parse_value_char s j).2 ∧ (parse_value_char s j).2 ≤ s.length := by
  simp only [parse_value_char]
  by_cases h1 : (isalnum (byteAt s j)) = true
  · rw [if_pos h1]
    have hlt : j < s.length := byteAt_ne_zero_lt (fun h0 => by rw [h0] at h1; exact absurd h1 (by decide))
    exact ⟨Nat.le_succ _, hlt⟩
  · rw [if_neg h1]
    by_cases h2 : (byteAt s j == 33 || byteAt s j == 35 || byteAt s j == 36 || byteAt s j == 38 ||
        byteAt s j == 43 || byteAt s j == 45 || byteAt s j == 46 || byteAt s j == 94 ||
        byteAt s j == 95 || byteAt s j == 96 || byteAt s j == 124 || byteAt s j == 126) = true
    · rw [if_pos h2]
      have hlt : j < s.length := byteAt_ne_zero_lt (fun h0 => by rw [h0] at h2; exact absurd h2 (by decide))
      exact ⟨Nat.le_succ _, hlt⟩
    · rw [if_neg h2]
      by_cases h3 : (byteAt s j == 37) = true
      · rw [if_pos h3]
        have hlt : j < s.length := byteAt_ne_zero_lt (fun h0 => by rw [h0] at h3; simp at h3)
        rcases hx1 : xdigit_to_num s (j + 1) with ⟨hi, j2⟩
        have hb1 := xdigit_to_num_cursor_bounds s (j + 1) hlt
        rw [hx1] at hb1
        simp only [hx1]
        by_cases hz1 : (hi == 0) = true
        · rw [if_pos hz1]
          exact ⟨by omega, hb1.2⟩
        · rw [if_neg hz1]
          rcases hx2 : xdigit_to_num s j2 with ⟨lo, j3⟩
          have hb2 := xdigit_to_num_cursor_bounds s j2 hb1.2
          rw [hx2] at hb2
          simp only [hx2]
          by_cases hz2 : (lo == 0) = true
          · rw [if_pos hz2]
            exact ⟨by omega, hb2.2⟩
          · rw [if_neg hz2]
            exact ⟨by omega, hb2.2⟩
      · rw [if_neg h3]
        exact ⟨le_refl _, h⟩

theorem value_chars_cursor_bounds (s : List Nat) :
    ∀ (fuel j : Nat) (acc : List Nat), j ≤ s.length →
      j ≤ (value_chars s fuel j acc).2 ∧ (value_chars s fuel j acc).2 ≤ s.length := by
  intro fuel
  induction fuel with
  | zero => intro j acc h; exact ⟨le_refl _, h⟩
  | succ fuel ih =>
    intro j acc h
    simp only [value_chars]
    rcases hp : parse_value_char s j with ⟨c, j2⟩
    have hb := parse_value_char_cursor_bounds s j h
    rw [hp] at hb
    simp only [hp]
    by_cases hc : (c == 0) = true
    · rw [if_pos hc]; exact hb
    · rw [if_neg hc]
      have := ih j2 (acc ++ [c]) hb.2
      exact ⟨le_trans hb.1 this.1, this.2⟩

theorem parse_ext_value_cursor_bounds (s : List Nat) (i : Nat) (h : i ≤ s.length) :
    i ≤ (parse_ext_value s i).2 ∧ (parse_ext_value s i).2 ≤ s.length := by
  simp only [parse_ext_value]
  by_cases hq : (byteAt s i == 39) = true
  · rw [if_neg (by simp [hq])]
    have hlt : i < s.length := byteAt_ne_zero_lt (fun h0 => by rw [h0] at hq; simp at hq)
    have hlen1 : (s.set i 0).length = s.length := List.length_set s i 0
    have htw : (((s.set i 0).drop (i + 1)).takeWhile
        (fun c => !(c == 39) && !(c == 0))).length ≤ ((s.set i 0).drop (i + 1)).length :=
      (List.takeWhile_prefix _).length_le
    have hdl : ((s.set i 0).drop (i + 1)).length = (s.set i 0).length - (i + 1) :=
      List.length_drop _ _
    by_cases hq2 : (byteAt (s.set i 0)
        (i + 1 + (((s.set i 0).drop (i + 1)).takeWhile
          (fun c => !(c == 39) && !(c == 0))).length) == 39) = true
    · rw [if_neg (by simp [hq2])]
      have hlt2 : i + 1 + (((s.set i 0).drop (i + 1)).takeWhile
          (fun c => !(c == 39) && !(c == 0))).length < (s.set i 0).length :=
        byteAt_ne_zero_lt (fun h0 => by rw [h0] at hq2; simp at hq2)
      have hlen2 : (((s.set i 0).set
          (i + 1 + (((s.set i 0).drop (i + 1)).takeWhile
            (fun c => !(c == 39) && !(c == 0))).length) 0)).length = s.length := by
        rw [List.length_set, hlen1]
      rcases hv : value_chars ((s.set i 0).set
          (i + 1 + (((s.set i 0).drop (i + 1)).takeWhile
            (fun c => !(c == 39) && !(c == 0))).length) 0)
          (((s.set i 0).set
            (i + 1 + (((s.set i 0).drop (i + 1)).takeWhile
              (fun c => !(c == 39) && !(c == 0))).length) 0).length + 1)
          (i + 1 + (((s.set i 0).drop (i + 1)).takeWhile
            (fun c => !(c == 39) && !(c == 0))).length + 1) [] with ⟨val, j⟩
      have hb := value_chars_cursor_bounds ((s.set i 0).set
          (i + 1 + (((s.set i 0).drop (i + 1)).takeWhile
            (fun c => !(c == 39) && !(c == 0))).length) 0)
          (((s.set i 0).set
            (i + 1 + (((s.set i 0).drop (i + 1)).takeWhile
              (fun c => !(c == 39) && !(c == 0))).length) 0).length + 1)
          (i + 1 + (((s.set i 0).drop (i + 1)).takeWhile
            (fun c => !(c == 39) && !(c == 0))).length + 1) []
          (by rw [hlen2]; rw [hlen1] at hlt2; omega)
      rw [hv] at hb
      rw [hlen2] at hb
      simp only [hv]
      exact ⟨by omega, hb.2⟩
    · rw [if_pos (by simp [hq2])]
      exact ⟨by omega, by omega⟩
  · rw [if_pos (by simp [hq])]
    exact ⟨le_refl _, h⟩

/--
Claim C8 (confirmed): for every input string with its terminating NUL at
index `length` and every cursor position at or before it, each of the
sub-parsers `parse_token`, `parse_quoted_string` and `parse_ext_value` only
moves the cursor forward and never past the terminating NUL; since every
read is at an index at most the final cursor, no byte beyond the NUL is ever
read.
-/
theorem subparser_cursor_bounds (s : List Nat) (i : Nat) (h : i ≤ s.length) :
    (i ≤ (parse_token s i).2 ∧ (parse_token s i).2 ≤ s.length) ∧
    (i ≤ (parse_quoted_string s i).2 ∧ (parse_quoted_string s i).2 ≤ s.length) ∧
    (i ≤ (parse_ext_value s i).2 ∧ (parse_ext_value s i).2 ≤ s.length) :=
  ⟨parse_token_cursor_bounds s i h, parse_quoted_string_cursor_bounds s i h,
   parse_ext_value_cursor_bounds s i h⟩

/--
Claim C8 (witness): the bounds instantiated on a concrete header value at
cursor 0.
-/
theorem subparser_cursor_bounds_witness :
    0 ≤ (bytes "a\x27b").length ∧
    ((0 ≤ (parse_token (bytes "a\x27b") 0).2 ∧
      (parse_token (bytes "a\x27b") 0).2 ≤ (bytes "a\x27b").length) ∧
     (0 ≤ (parse_quoted_string (bytes "a\x27b") 0).2 ∧
      (parse_quoted_string (bytes "a\x27b") 0).2 ≤ (bytes "a\x27b").length) ∧
     (0 ≤ (parse_ext_value (bytes "a\x27b") 0).2 ∧
      (parse_ext_value (bytes "a\x27b") 0).2 ≤ (bytes "a\x27b").length)) :=
  ⟨by decide, subparser_cursor_bounds (bytes "a\x27b") 0 (by decide)⟩

end PwCurl
